import Mathlib

/-!
Shallow embedding of src/downloadArfcomThread.py: the Post extractor
(class Post and its four getters) and the pagination-driven crawl loop
(classmethod ArfcomThread.download), together with the Python string
primitives they use.  Machine-checked statements about the claims of the
specification follow the definitions.
-/

set_option autoImplicit false

deriving instance DecidableEq for Except

namespace Arfcom

/-- Whitespace characters recognised by Python str.split() and str.strip()
(the ASCII subset; all strings handled by the scraper are ASCII). -/
def pyIsSpace (c : Char) : Bool :=
  c = ' ' || c = '\t' || c = '\n' || c = '\r' || c = '\x0b' || c = '\x0c'

/-- Model of Python str.strip(): drop leading and trailing whitespace. -/
def pyStrip (s : String) : String :=
  ⟨((s.data.dropWhile pyIsSpace).reverse.dropWhile pyIsSpace).reverse⟩

/-- Helper of pySplit: walk the characters carrying the reversed current
token; a whitespace character closes the current token when it is
nonempty, so only nonempty tokens are produced. -/
def pySplitAux : List Char → List Char → List String
  | [], acc => if acc.isEmpty then [] else [⟨acc.reverse⟩]
  | c :: cs, acc =>
      if pyIsSpace c then
        if acc.isEmpty then pySplitAux cs []
        else ⟨acc.reverse⟩ :: pySplitAux cs []
      else pySplitAux cs (c :: acc)

/-- Model of Python str.split() with no separator: split on whitespace runs
and keep only the nonempty tokens. -/
def pySplit (s : String) : List String :=
  pySplitAux s.data []

/-- Helper of pySplitSlash: walk the characters carrying the reversed
current part; every separator closes a part, and empty parts are kept. -/
def splitSepAux (sep : Char) : List Char → List Char → List String
  | [], acc => [⟨acc.reverse⟩]
  | c :: cs, acc =>
      if c = sep then ⟨acc.reverse⟩ :: splitSepAux sep cs []
      else splitSepAux sep cs (c :: acc)

/-- Model of Python s.split(sep) with the slash separator: empty parts are
kept and the result always has at least one part. -/
def pySplitSlash (s : String) : List String :=
  splitSepAux '/' s.data []

/-- Model of Python sep.join(tokens). -/
def pyJoin (sep : String) : List String → String
  | [] => ""
  | x :: xs => xs.foldl (fun acc t => acc ++ sep ++ t) x

/-- Value of a list of decimal digits. -/
def digitsVal (cs : List Char) : Nat :=
  cs.foldl (fun n c => 10 * n + (c.toNat - 48)) 0

/-- Model of Python int(s) on a list of characters: optional surrounding
whitespace, an optional sign, then one or more decimal digits; any other
shape raises ValueError, modelled as none. -/
def pyIntChars (cs0 : List Char) : Option Int :=
  let cs := ((cs0.dropWhile pyIsSpace).reverse.dropWhile pyIsSpace).reverse
  match cs with
  | [] => none
  | '+' :: rest =>
      if rest.isEmpty then none
      else if rest.all Char.isDigit then some (digitsVal rest) else none
  | '-' :: rest =>
      if rest.isEmpty then none
      else if rest.all Char.isDigit then some (-(digitsVal rest : Int)) else none
  | _ =>
      if cs.all Char.isDigit then some (digitsVal cs) else none

/-- Model of Python int(s) on a string. -/
def pyInt (s : String) : Option Int :=
  pyIntChars s.data

/-- Character class of the scan pattern in Post.getPostID.  The Python
pattern string is a bracket expression matching one of the characters
'#', '[' or a digit, repeated one or more times, followed by a literal
']' (the first ']' in the pattern closes the class). -/
def idPatChar (c : Char) : Bool :=
  c = '#' || c = '[' || c.isDigit

/-- Attempt of the scan pattern at the start of cs: a nonempty maximal run of
class characters followed by a literal ']'.  Greedy backtracking cannot
shorten the run, because ']' is not a class character, so the maximal run is
the only candidate. -/
def idPatMatchAt (cs : List Char) : Option (List Char) :=
  let run := cs.takeWhile idPatChar
  if run.isEmpty then none
  else
    match cs.drop run.length with
    | ']' :: _ => some (run ++ [']'])
    | _ => none

/-- Model of re.search with the scan pattern: the match at the leftmost
position where one exists, as matched text, or none. -/
def reSearch : List Char → Option (List Char)
  | [] => none
  | c :: cs =>
      match idPatMatchAt (c :: cs) with
      | some m => some m
      | none => reSearch cs

/-- Python exception kinds that the scraper can raise. -/
inductive PyError where
  | typeError
  | attributeError
  | valueError
  | indexError
  deriving DecidableEq

/-- Abstraction of one candidate post fragment (a BeautifulSoup subtree),
recording exactly what the four queries of class Post read from it:
idxLabels is the list of texts of the nodes found by
find_all with the index-label class, in document order; anchor is the text
of the first hyperlink descendant, none when there is none;
timestampContents is the list of texts of the contents of the timestamp
div, none when that div is absent; body is the text of the body div, none
when that div is absent.  Candidate fragments handed to Post are the
truthy tags of the page, so the early return for a falsy post in
Post.init is not taken. -/
structure Fragment where
  idxLabels : List String
  anchor : Option String
  timestampContents : Option (List String)
  body : Option String
  deriving DecidableEq

/-- Record built by class Post: all fields start as None except page. -/
structure Post where
  id : Option Int
  page : Int
  author : Option String
  time : Option String
  text : Option String
  deriving DecidableEq

/-- Body of the loop of Post.getPostID for one index-label node: re.search
the pattern in its text; when a match is found and begins with a literal
bracket, parse the slice group()[2:-1] with int() (ValueError when the
slice is not an integer literal) and overwrite the id with
50 * (page - 1) + parsed value; otherwise keep the current id. -/
def scanStep (page : Int) (cur : Option Int) (t : String) : Except PyError (Option Int) :=
  match reSearch t.data with
  | none => .ok cur
  | some m =>
      if m.head? = some '[' then
        match pyIntChars ((m.drop 2).dropLast) with
        | some k => .ok (some (50 * (page - 1) + k))
        | none => .error .valueError
      else .ok cur

/-- Loop of Post.getPostID over the index-label nodes, carrying the current
id value and propagating an exception of the loop body. -/
def getPostIDAux (page : Int) : Option Int → List String → Except PyError (Option Int)
  | cur, [] => .ok cur
  | cur, t :: rest =>
      match scanStep page cur t with
      | .error e => .error e
      | .ok cur2 => getPostIDAux page cur2 rest

/-- Model of Post.getPostID: scan the fragment's index-label nodes starting
from the initial None id. -/
def getPostID (frag : Fragment) (page : Int) : Except PyError (Option Int) :=
  getPostIDAux page none frag.idxLabels

/-- Model of Post.getAuthor.  When find of the first hyperlink returns None,
taking .text raises AttributeError, which is caught and author set to None;
the unguarded len check that follows then raises TypeError on None.  When
the hyperlink exists, its stripped text is kept, except that an empty
stripped text is reset to None. -/
def getAuthor (frag : Fragment) : Except PyError (Option String) :=
  let author : Option String := frag.anchor.map pyStrip
  match author with
  | none => .error .typeError
  | some s => if s.length ≤ 0 then .ok none else .ok (some s)

/-- Model of Post.getTime.  The try block takes contents[1] of the timestamp
div, strips its text, splits on whitespace and rejoins the tokens from the
second to the next-to-last with single spaces.  A missing div
(AttributeError on .contents) or a contents list without index 1
(IndexError) is caught and time set to None, after which the unguarded len
check raises TypeError on None.  An empty join result is reset to None by
the same check. -/
def getTime (frag : Fragment) : Except PyError (Option String) :=
  let time : Option String :=
    match frag.timestampContents with
    | none => none
    | some contents =>
        match contents.get? 1 with
        | none => none
        | some s => some (pyJoin " " (((pySplit (pyStrip s)).drop 1).dropLast))
  match time with
  | none => .error .typeError
  | some s => if s.length ≤ 0 then .ok none else .ok (some s)

/-- Model of Post.getText.  Only KeyError is caught; when find of the body
div returns None, taking .text raises AttributeError, which propagates.
An empty stripped body text is kept as-is. -/
def getText (frag : Fragment) : Except PyError (Option String) :=
  match frag.body with
  | none => .error .attributeError
  | some s => .ok (some (pyStrip s))

/-- Model of the Post constructor: fields start at None, then the four
getters run in order; any uncaught exception propagates to the caller. -/
def mkPost (frag : Fragment) (page : Int) : Except PyError Post :=
  match getPostID frag page with
  | .error e => .error e
  | .ok id =>
    match getAuthor frag with
    | .error e => .error e
    | .ok author =>
      match getTime frag with
      | .error e => .error e
      | .ok time =>
        match getText frag with
        | .error e => .error e
        | .ok text => .ok ⟨id, page, author, time, text⟩

/-- Python truthiness of the optional-integer id field: None and 0 are
falsy. -/
def truthyInt : Option Int → Bool
  | none => false
  | some n => n != 0

/-- Python truthiness of an optional-string field: None and the empty
string are falsy. -/
def truthyStr : Option String → Bool
  | none => false
  | some s => s != ""

/-- The insertion guard of ArfcomThread.download: the conjunction of the
truthiness of newpost.id, newpost.author, newpost.time and newpost.text. -/
def accepted (p : Post) : Bool :=
  truthyInt p.id && truthyStr p.author && truthyStr p.time && truthyStr p.text

/-- Per-page fragment loop of download, carrying the rows inserted so far:
build a Post from each expanded-row fragment in document order and append
the accepted ones to the store; an exception from Post construction
propagates and aborts the crawl. -/
def processPageAux (page : Int) : List Post → List Fragment → Except PyError (List Post)
  | acc, [] => .ok acc
  | acc, f :: rest =>
      match mkPost f page with
      | .error e => .error e
      | .ok p =>
          if accepted p then processPageAux page (acc ++ [p]) rest
          else processPageAux page acc rest

/-- Rows inserted into the store while processing one page's fragments. -/
def processPage (frags : List Fragment) (page : Int) : Except PyError (List Post) :=
  processPageAux page [] frags

/-- Model of the page-1 bound computation of download:
int applied to the last whitespace token of the stripped text of the page
selector control.  A missing control raises AttributeError (taking .text of
None), indexing an empty token list raises IndexError, and an unparsable
token raises ValueError. -/
def parseTotalPages (selectorText : Option String) : Except PyError Int :=
  match selectorText with
  | none => .error .attributeError
  | some s =>
      match (pySplit (pyStrip s)).getLast? with
      | none => .error .indexError
      | some tok =>
          match pyInt tok with
          | some n => .ok n
          | none => .error .valueError

/-- Outcome of the crawl loop: the pages requested and rows inserted, and
the exception that aborted the loop when one propagated. -/
inductive CrawlResult where
  | ok (fetched : List Nat) (inserted : List Post)
  | err (fetched : List Nat) (inserted : List Post) (e : PyError)
  deriving DecidableEq

/-- Model of the while loop of ArfcomThread.download.  The mutable state is
the current page (starting at 1) and the lastPage bound (starting at 1000
until the selector of page 1 is parsed); fetched collects the page numbers
requested so far and inserted the rows written to the store.  Each
iteration requests the current page, on page 1 parses the selector, then
processes the page's fragments, and increments the page.  The fuel
argument only bounds how many iterations the model unfolds; none is
returned when it runs out before the loop condition fails. -/
def crawlLoop (pages : Nat → List Fragment) (selectorText : Option String) :
    Nat → Nat → Int → List Nat → List Post → Option CrawlResult
  | 0, page, lastPage, fetched, inserted =>
      if (page : Int) ≤ lastPage then none else some (.ok fetched inserted)
  | Nat.succ fuel, page, lastPage, fetched, inserted =>
      if (page : Int) ≤ lastPage then
        if page = 1 then
          match parseTotalPages selectorText with
          | .error e => some (.err (fetched ++ [page]) inserted e)
          | .ok n =>
              match processPage (pages page) (page : Int) with
              | .error e => some (.err (fetched ++ [page]) inserted e)
              | .ok ins =>
                  crawlLoop pages selectorText fuel (page + 1) n
                    (fetched ++ [page]) (inserted ++ ins)
        else
          match processPage (pages page) (page : Int) with
          | .error e => some (.err (fetched ++ [page]) inserted e)
          | .ok ins =>
              crawlLoop pages selectorText fuel (page + 1) lastPage
                (fetched ++ [page]) (inserted ++ ins)
      else some (.ok fetched inserted)

/-- Model of the page loop of ArfcomThread.download: page starts at 1 and
lastPage at 1000. -/
def downloadRun (pages : Nat → List Fragment) (selectorText : Option String)
    (fuel : Nat) : Option CrawlResult :=
  crawlLoop pages selectorText fuel 1 1000 [] []

/-- Model of the default database base name of download: the third-from-last
part of the thread url split on the slash character, with ".db" appended;
Python indexing with -3 raises IndexError when the url has fewer than
three parts. -/
def dbBaseFromUrl (threadPage : String) : Except PyError String :=
  let parts := pySplitSlash threadPage
  if 3 ≤ parts.length then .ok (parts.getD (parts.length - 3) "" ++ ".db")
  else .error .indexError

/-- Database base name chosen by download: the explicit dbName argument when
it is truthy (None and the empty string are falsy), otherwise the default
derived from the url. -/
def dbBase (threadPage : String) (dbName : Option String) : Except PyError String :=
  match dbName with
  | some s => if s = "" then dbBaseFromUrl threadPage else .ok s
  | none => dbBaseFromUrl threadPage

/-- File name of the SQLite store opened by download: the chosen base name
with ".db" appended. -/
def dbFileName (threadPage : String) (dbName : Option String) : Except PyError String :=
  (dbBase threadPage dbName).map (fun b => b ++ ".db")

/-! Concrete data shared by several statements. -/

/-- A representative timestamp widget text. -/
def tsPosted : String := "Posted Mon Jan 2, 2020 10:00 AM PST"

/-- Contents of a well-formed timestamp div: a whitespace text node followed
by the node carrying the timestamp text. -/
def tsContents : List String := ["", tsPosted]

/-- Fragment whose only index-label text contains the marker [#7] preceded
by other digit text. -/
def c1Frag : Fragment := ⟨["12] [#7]"], some "alice", some tsContents, some "hi"⟩

/-- C1.  Counterexample to the claim as stated.  The fragment c1Frag has one
index-label node whose text "12] [#7]" includes the marker [#7], and the
page number 1 is positive, so the claim predicts id = 50 * (1 - 1) + 7;
but re.search returns the leftmost pattern match "12]", which does not
begin with a bracket, the single match of this node is discarded, and the
id stays unset. -/
theorem c1_counterexample :
    "12] [#7]" = "12] " ++ "[#7]" ∧
    (mkPost c1Frag 1).map Post.id = .ok none ∧
    (mkPost c1Frag 1).map Post.id ≠ .ok (some (50 * (1 - 1) + 7)) := by
  refine ⟨rfl, rfl, ?_⟩
  decide

/-- C1 amended.  For every fragment whose index-label scan finds exactly one
node, every positive page, if the leftmost pattern match in that node's
text begins with a bracket and its inner slice parses as the integer k,
then extraction sets the id to 50 * (page - 1) + k. -/
theorem c1_id_formula (frag : Fragment) (page : Int) (t : String)
    (m : List Char) (k : Int)
    (hidx : frag.idxLabels = [t])
    (_hpage : 1 ≤ page)
    (hm : reSearch t.data = some m)
    (hb : m.head? = some '[')
    (hk : pyIntChars ((m.drop 2).dropLast) = some k) :
    getPostID frag page = .ok (some (50 * (page - 1) + k)) := by
  unfold getPostID
  rw [hidx]
  simp [getPostIDAux, scanStep, hm, hb, hk]

/-- C1 amended, witness: for page 3 and the sole label text "[#7]" the id is
50 * (3 - 1) + 7 = 107. -/
theorem c1_id_formula_witness :
    getPostID ⟨["[#7]"], none, none, none⟩ 3 = .ok (some 107) := by
  have h := c1_id_formula ⟨["[#7]"], none, none, none⟩ 3 "[#7]"
    ['[', '#', '7', ']'] 7 rfl (by decide) (by decide) (by decide) (by decide)
  rw [h]
  decide

/-- C2.  The extractor does raise to the caller: a fragment with no
hyperlink descendant raises TypeError (len of None after the caught
AttributeError), a fragment with no timestamp div raises TypeError the same
way, as does one whose timestamp div has no second child, and a fragment
with no body div raises AttributeError (only KeyError is caught).  Only a
missing index label is handled silently, with the id left unset. -/
theorem c2_extraction_raises :
    mkPost ⟨[], none, some tsContents, some "b"⟩ 1 = .error .typeError ∧
    mkPost ⟨[], some "alice", none, some "b"⟩ 1 = .error .typeError ∧
    mkPost ⟨[], some "alice", some ["x"], some "b"⟩ 1 = .error .typeError ∧
    mkPost ⟨[], some "alice", some tsContents, none⟩ 1 = .error .attributeError ∧
    mkPost ⟨[], some "alice", some tsContents, some "b"⟩ 1 =
      .ok ⟨none, 1, some "alice", some "Mon Jan 2, 2020 10:00 AM", some "b"⟩ := by
  refine ⟨rfl, rfl, rfl, rfl, rfl⟩

/-- Fragment with author, timestamp and an id marker present but an empty
body text. -/
def c3Frag : Fragment := ⟨["[#7]"], some "alice", some tsContents, some ""⟩

/-- C3.  A fragment with author "alice", a valid timestamp, an id marker and
a zero-length body text is extracted with text present (the empty string,
not None), yet the insertion guard of download evaluates the empty string
as falsy and the record is not inserted into the store. -/
theorem c3_empty_text_rejected :
    (mkPost c3Frag 1).map Post.text = .ok (some "") ∧
    (mkPost c3Frag 1).map accepted = .ok false ∧
    processPage [c3Frag] 1 = .ok [] := by
  refine ⟨rfl, rfl, rfl⟩

/-- Fragment whose three content fields are present but which has no
index-label node, so the id stays unset. -/
def c4Frag : Fragment := ⟨[], some "alice", some tsContents, some "hello"⟩

/-- C4.  Counterexample to the claim as stated: all three content fields of
c4Frag are extracted as present, no index label matched so the id is
unset, and the record is not inserted into the store, because the guard
of download also requires newpost.id to be truthy. -/
theorem c4_counterexample :
    (mkPost c4Frag 1).map (fun p => (p.id, p.author, p.time, p.text)) =
      .ok (none, some "alice", some "Mon Jan 2, 2020 10:00 AM", some "hello") ∧
    processPage [c4Frag] 1 = .ok [] := by
  refine ⟨rfl, rfl⟩

/-- C4 amended.  A record is inserted into the store exactly when the guard
of download holds, and that guard requires all four of id, author, time
and text to be truthy (id present and nonzero, the strings present and
nonempty): the id field gates acceptance together with the three content
fields. -/
theorem c4_acceptance_requires_id (frag : Fragment) (page : Int) (p : Post)
    (h : mkPost frag page = .ok p) :
    processPage [frag] page = .ok (if accepted p then [p] else []) ∧
    (accepted p = true ↔
      truthyInt p.id = true ∧ truthyStr p.author = true ∧
      truthyStr p.time = true ∧ truthyStr p.text = true) := by
  constructor
  · by_cases hacc : accepted p
    · simp [processPage, processPageAux, h, hacc]
    · simp [processPage, processPageAux, h, hacc]
  · simp [accepted, Bool.and_eq_true, and_assoc]

/-- Fragment accepted by the guard: all four fields present and truthy. -/
def c4wFrag : Fragment := ⟨["[#7]"], some "alice", some tsContents, some "hello"⟩

/-- Post record extracted from c4wFrag on page 1. -/
def c4wPost : Post := ⟨some 7, 1, some "alice", some "Mon Jan 2, 2020 10:00 AM", some "hello"⟩

/-- C4 amended, witness: the fully populated record from c4wFrag is inserted. -/
theorem c4_acceptance_requires_id_witness :
    processPage [c4wFrag] 1 = .ok [c4wPost] ∧ accepted c4wPost = true := by
  have h := (c4_acceptance_requires_id c4wFrag 1 c4wPost (by decide)).1
  rw [if_pos (by decide : accepted c4wPost = true)] at h
  exact ⟨h, by decide⟩

/-- Fragment with id marker, timestamp and body present but no hyperlink
descendant. -/
def c7Frag : Fragment := ⟨["[#7]"], none, some tsContents, some "hello"⟩

/-- C7.  A fragment with no hyperlink descendant is indeed never inserted,
but not through a silent rejection: Post construction raises TypeError
(len of None in getAuthor), the exception propagates into the page loop of
download, and the whole crawl aborts with it after requesting only the
page being processed. -/
theorem c7_missing_author_raises :
    mkPost c7Frag 1 = .error .typeError ∧
    processPage [c7Frag] 1 = .error .typeError ∧
    downloadRun (fun _ => [c7Frag]) (some "1 2 3 4") 5 =
      some (.err [1] [] .typeError) := by
  refine ⟨rfl, rfl, rfl⟩

/-! Helper lemmas about the string primitives. -/

/-- Tokens produced by the whitespace splitter are nonempty. -/
theorem pySplitAux_mem_ne (cs : List Char) :
    ∀ (acc : List Char) (t : String), t ∈ pySplitAux cs acc → t ≠ "" := by
  induction cs with
  | nil =>
      intro acc t ht
      by_cases hacc : acc.isEmpty
      · simp [pySplitAux, hacc] at ht
      · simp [pySplitAux, hacc] at ht
        subst ht
        intro h
        have hdata : acc.reverse = [] := congrArg String.data h
        simp at hdata
        subst hdata
        simp at hacc
  | cons c cs ih =>
      intro acc t ht
      by_cases hsp : pyIsSpace c
      · by_cases hacc : acc.isEmpty
        · rw [pySplitAux, if_pos hsp, if_pos hacc] at ht
          exact ih [] t ht
        · rw [pySplitAux, if_pos hsp, if_neg hacc] at ht
          rcases List.mem_cons.mp ht with h | h
          · subst h
            intro h
            have hdata : acc.reverse = [] := congrArg String.data h
            simp at hdata
            subst hdata
            simp at hacc
          · exact ih [] t h
      · rw [pySplitAux, if_neg hsp] at ht
        exact ih (c :: acc) t ht

/-- Tokens of pySplit are nonempty. -/
theorem pySplit_mem_ne (s : String) (t : String) (ht : t ∈ pySplit s) : t ≠ "" :=
  pySplitAux_mem_ne s.data [] t ht

/-- Folding the join step only grows the accumulated string. -/
theorem pyJoin_foldl_length (sep : String) (xs : List String) :
    ∀ acc : String, acc.length ≤ (xs.foldl (fun a t => a ++ sep ++ t) acc).length := by
  induction xs with
  | nil => intro acc; simp
  | cons x xs ih =>
      intro acc
      calc acc.length ≤ (acc ++ sep ++ x).length := by
            rw [String.length_append, String.length_append]; omega
        _ ≤ _ := ih (acc ++ sep ++ x)

/-- An empty string has length zero, and conversely. -/
theorem string_eq_empty_of_length (s : String) (h : s.length = 0) : s = "" := by
  cases s with
  | mk d =>
      cases d with
      | nil => rfl
      | cons c cs => simp [String.length] at h

/-- Joining a list whose head token is nonempty yields a nonempty string. -/
theorem pyJoin_ne_empty (sep x : String) (xs : List String) (hx : x ≠ "") :
    pyJoin sep (x :: xs) ≠ "" := by
  intro h
  apply hx
  have hlen := pyJoin_foldl_length sep xs x
  rw [pyJoin] at h
  rw [h] at hlen
  exact string_eq_empty_of_length x (by simpa using hlen)

/-- C5.  For every fragment whose timestamp div is present with a second
child whose stripped text splits into at least three whitespace tokens,
getTime succeeds and returns the tokens from the second to the
next-to-last rejoined with single spaces. -/
theorem c5_timestamp_reduction (frag : Fragment) (cs : List String) (s : String)
    (ts : List String)
    (hc : frag.timestampContents = some cs)
    (hs : cs.get? 1 = some s)
    (hts : pySplit (pyStrip s) = ts)
    (hlen : 3 ≤ ts.length) :
    getTime frag = .ok (some (pyJoin " " ((ts.drop 1).dropLast))) := by
  have hcons : ∃ x rest, (ts.drop 1).dropLast = x :: rest := by
    have hl : ((ts.drop 1).dropLast).length = ts.length - 2 := by
      rw [List.length_dropLast, List.length_drop]; omega
    rcases hx : (ts.drop 1).dropLast with _ | ⟨x, rest⟩
    · rw [hx] at hl; simp at hl; omega
    · exact ⟨x, rest, rfl⟩
  obtain ⟨x, rest, hx⟩ := hcons
  have hx_mem : x ∈ ts := by
    have h1 : x ∈ (ts.drop 1).dropLast := by
      rw [hx]; exact List.mem_cons_self x rest
    exact List.drop_subset 1 ts (List.dropLast_subset (ts.drop 1) h1)
  have hxne : x ≠ "" := pySplit_mem_ne (pyStrip s) x (hts ▸ hx_mem)
  have hne : pyJoin " " ((ts.drop 1).dropLast) ≠ "" := by
    rw [hx]; exact pyJoin_ne_empty " " x rest hxne
  have hlen0 : ¬ ((pyJoin " " ((ts.drop 1).dropLast)).length ≤ 0) := by
    intro h0
    exact hne (string_eq_empty_of_length _ (Nat.le_zero.mp h0))
  simp only [getTime, hc, hs, hts]
  rw [if_neg hlen0]

/-- Fragment carrying only the representative timestamp widget. -/
def c5Frag : Fragment := ⟨[], none, some tsContents, none⟩

/-- C5 witness: the widget text reduces to "Mon Jan 2, 2020 10:00 AM". -/
theorem c5_timestamp_reduction_witness :
    getTime c5Frag = .ok (some "Mon Jan 2, 2020 10:00 AM") := by
  have h := c5_timestamp_reduction c5Frag tsContents tsPosted
    ["Posted", "Mon", "Jan", "2,", "2020", "10:00", "AM", "PST"]
    rfl rfl (by decide) (by decide)
  rw [h]
  decide

/-- Scanning a concatenation of index-label node lists runs the scan of the
first part and continues with its result, unless it raised. -/
theorem getPostIDAux_append (page : Int) (l1 l2 : List String) :
    ∀ cur : Option Int,
      getPostIDAux page cur (l1 ++ l2) =
        match getPostIDAux page cur l1 with
        | .error e => .error e
        | .ok r => getPostIDAux page r l2 := by
  induction l1 with
  | nil => intro cur; simp [getPostIDAux]
  | cons t rest ih =>
      intro cur
      simp only [List.cons_append, getPostIDAux]
      cases hs : scanStep page cur t with
      | error e => rfl
      | ok cur2 => exact ih cur2

/-- C8.  When the scan of the earlier index-label nodes completes with some
current id and the last node's text has a pattern match that begins with a
bracket and parses as k, the stored id is the one parsed from that last
node: each later successful match overwrites the earlier value. -/
theorem c8_last_match_wins (frag : Fragment) (page : Int) (labels : List String)
    (t : String) (m : List Char) (k : Int) (r : Option Int)
    (hidx : frag.idxLabels = labels ++ [t])
    (hpre : getPostIDAux page none labels = .ok r)
    (hm : reSearch t.data = some m)
    (hb : m.head? = some '[')
    (hk : pyIntChars ((m.drop 2).dropLast) = some k) :
    getPostID frag page = .ok (some (50 * (page - 1) + k)) := by
  unfold getPostID
  rw [hidx, getPostIDAux_append, hpre]
  simp [getPostIDAux, scanStep, hm, hb, hk]

/-- C8 witness: with the two markers [#3] and [#7] in scan order on page 1,
the stored id is 7, the one parsed from the last matching node. -/
theorem c8_last_match_wins_witness :
    getPostID ⟨["[#3]", "[#7]"], none, none, none⟩ 1 = .ok (some 7) := by
  have h := c8_last_match_wins ⟨["[#3]", "[#7]"], none, none, none⟩ 1 ["[#3]"]
    "[#7]" ['[', '#', '7', ']'] 7 (some 3) rfl (by decide) (by decide) (by decide)
    (by decide)
  rw [h]
  decide

/-- C9.  When the page selector of page 1 is absent or unparsable, the
exception from the bound computation propagates out of the crawl: the run
ends with that error after requesting only page 1, and no further page is
fetched. -/
theorem c9_page_bounds_fatal (pages : Nat → List Fragment) (sel : Option String)
    (e : PyError) (fuel : Nat)
    (he : parseTotalPages sel = .error e)
    (hfuel : 1 ≤ fuel) :
    downloadRun pages sel fuel = some (.err [1] [] e) := by
  obtain ⟨f, rfl⟩ : ∃ f, fuel = f + 1 := ⟨fuel - 1, by omega⟩
  unfold downloadRun
  rw [crawlLoop, if_pos (by norm_num), if_pos rfl, he]
  simp

/-- C9 witness: a missing selector control aborts the crawl with
AttributeError after the single request of page 1. -/
theorem c9_page_bounds_fatal_witness :
    downloadRun (fun _ => []) none 1 = some (.err [1] [] .attributeError) :=
  c9_page_bounds_fatal (fun _ => []) none .attributeError 1 rfl (by decide)

/-- Steady phase of the crawl loop: from any page of at least 2, with the
bound fixed, enough fuel and every page processing normally, the loop
requests exactly the remaining pages up to the bound in ascending order
and ends normally. -/
theorem crawlLoop_steady (pages : Nat → List Fragment) (sel : Option String)
    (hproc : ∀ n : Nat, ∃ ins, processPage (pages n) (n : Int) = .ok ins) :
    ∀ (fuel : Nat) (page : Nat) (lastPage : Int) (fetched : List Nat)
      (inserted : List Post),
      2 ≤ page → (lastPage + 1 - page).toNat ≤ fuel →
      ∃ ins, crawlLoop pages sel fuel page lastPage fetched inserted =
        some (.ok (fetched ++ List.range' page ((lastPage + 1 - page).toNat)) ins) := by
  intro fuel
  induction fuel with
  | zero =>
      intro page lastPage fetched inserted hpage hfuel
      have hgt : ¬ ((page : Int) ≤ lastPage) := by omega
      have h0 : (lastPage + 1 - page).toNat = 0 := by omega
      rw [crawlLoop, if_neg hgt, h0]
      exact ⟨inserted, by simp⟩
  | succ f ih =>
      intro page lastPage fetched inserted hpage hfuel
      by_cases hle : (page : Int) ≤ lastPage
      · rw [crawlLoop, if_pos hle, if_neg (by omega : ¬ page = 1)]
        obtain ⟨ins1, hins1⟩ := hproc page
        rw [hins1]
        dsimp only
        obtain ⟨ins2, hins2⟩ :=
          ih (page + 1) lastPage (fetched ++ [page]) (inserted ++ ins1)
            (by omega) (by omega)
        refine ⟨ins2, ?_⟩
        rw [hins2]
        have hn : (lastPage + 1 - (page : Int)).toNat =
            (lastPage + 1 - ((page + 1 : Nat) : Int)).toNat + 1 := by
          push_cast
          omega
        rw [hn, List.range'_succ, List.append_assoc]
        rfl
      · have h0 : (lastPage + 1 - page).toNat = 0 := by omega
        rw [crawlLoop, if_neg hle, h0]
        exact ⟨inserted, by simp⟩

/-- C6.  When the page selector of page 1 parses to a total of N pages with
N at least 1, every page processes without an exception and the fuel is at
least N, the crawl requests exactly pages 1 through N in ascending order
and then ends normally; page N + 1 is never requested. -/
theorem c6_pagination_bound (pages : Nat → List Fragment) (sel : Option String)
    (N : Int) (fuel : Nat)
    (hN : parseTotalPages sel = .ok N)
    (h1 : 1 ≤ N)
    (hproc : ∀ n : Nat, ∃ ins, processPage (pages n) (n : Int) = .ok ins)
    (hfuel : N.toNat ≤ fuel) :
    (∃ ins, downloadRun pages sel fuel = some (.ok (List.range' 1 N.toNat) ins)) ∧
      N.toNat + 1 ∉ List.range' 1 N.toNat := by
  constructor
  · obtain ⟨f, rfl⟩ : ∃ f, fuel = f + 1 := ⟨fuel - 1, by omega⟩
    unfold downloadRun
    rw [crawlLoop, if_pos (by norm_num), if_pos rfl, hN]
    obtain ⟨ins1, hins1⟩ := hproc 1
    rw [hins1]
    dsimp only
    obtain ⟨ins2, hins2⟩ :=
      crawlLoop_steady pages sel hproc f 2 N [1] ins1 (by omega) (by omega)
    refine ⟨ins2, ?_⟩
    show crawlLoop pages sel f 2 N [1] ins1 =
      some (.ok (List.range' 1 N.toNat) ins2)
    rw [hins2]
    have hn : N.toNat = (N + 1 - ((2 : Nat) : Int)).toNat + 1 := by
      push_cast
      omega
    rw [hn, List.range'_succ]
    rfl
  · intro hmem
    rw [List.mem_range'_1] at hmem
    omega

/-- C6 witness: a selector text whose last token is 4 bounds the crawl to
the four pages 1, 2, 3, 4, and page 5 is never requested. -/
theorem c6_pagination_bound_witness :
    (∃ ins, downloadRun (fun _ => []) (some "1 2 3 4") 4 =
      some (.ok (List.range' 1 4) ins)) ∧
      (5 : Nat) ∉ List.range' 1 4 := by
  have h := c6_pagination_bound (fun _ => []) (some "1 2 3 4") 4 4
    (by decide) (by decide) (fun n => ⟨[], rfl⟩) (by decide)
  exact h

/-- C10.  The SQLite file opened by download is the explicit base name with
".db" appended once when a nonempty base name is passed, and otherwise the
third-from-last slash-separated part of the thread url with ".db" appended
twice. -/
theorem c10_db_file_name :
    (∀ url name : String, name ≠ "" →
      dbFileName url (some name) = .ok (name ++ ".db")) ∧
    (∀ url : String, 3 ≤ (pySplitSlash url).length →
      dbFileName url none =
        .ok ((pySplitSlash url).getD ((pySplitSlash url).length - 3) "" ++ ".db.db")) := by
  constructor
  · intro url name h
    simp [dbFileName, dbBase, h, Except.map]
  · intro url h
    simp only [dbFileName, dbBase, dbBaseFromUrl, if_pos h, Except.map]
    rw [String.append_assoc]
    rfl

/-- C10 witness: an explicit base name "mythread" gives the file
"mythread.db"; with the name omitted, the url "a/b/c/d" gives the file
"b.db.db" from its third-from-last part "b". -/
theorem c10_db_file_name_witness :
    dbFileName "a/b/c/d" (some "mythread") = .ok "mythread.db" ∧
    dbFileName "a/b/c/d" none = .ok "b.db.db" := by
  constructor
  · exact c10_db_file_name.1 "a/b/c/d" "mythread" (by decide)
  · have h := c10_db_file_name.2 "a/b/c/d" (by decide)
    rw [h]
    decide

end Arfcom
